import Mathlib

/-!
Shallow embedding of `cmd/litestream/main_windows.go`: the Windows service
adapter (`windowsService.Execute`), the event-log writer adapter
(`eventlogWriter.Write`), and the log-destination handling in
`runWindowsService`.  Numeric constants mirror `golang.org/x/sys/windows/svc`.
-/

namespace Litestream

/-! ## Service control command codes (`svc.Cmd`) -/

/-- `svc.Stop` (SERVICE_CONTROL_STOP). -/
def svcStop : Nat := 1

/-- `svc.Pause` (SERVICE_CONTROL_PAUSE). -/
def svcPause : Nat := 2

/-- `svc.Continue` (SERVICE_CONTROL_CONTINUE). -/
def svcContinue : Nat := 3

/-- `svc.Interrogate` (SERVICE_CONTROL_INTERROGATE). -/
def svcInterrogate : Nat := 4

/-- `svc.Shutdown` (SERVICE_CONTROL_SHUTDOWN). -/
def svcShutdown : Nat := 5

/-! ## Accepted-control bit flags (`svc.Accepted`) -/

/-- `svc.AcceptStop` (SERVICE_ACCEPT_STOP). -/
def acceptStop : Nat := 1

/-- `svc.AcceptPauseAndContinue` (SERVICE_ACCEPT_PAUSE_CONTINUE); a single
flag covers both Pause and Continue in the Windows service protocol. -/
def acceptPauseAndContinue : Nat := 2

/-- `svc.AcceptShutdown` (SERVICE_ACCEPT_SHUTDOWN). -/
def acceptShutdown : Nat := 4

/-- The constant `accepts` declared at the top of `Execute`:
`svc.AcceptStop | svc.AcceptShutdown | svc.AcceptPauseAndContinue`. -/
def accepts : Nat := acceptStop ||| acceptShutdown ||| acceptPauseAndContinue

/-! ## Service states (`svc.State`) -/

/-- `svc.Stopped` (SERVICE_STOPPED). -/
def stateStopped : Nat := 1

/-- `svc.StartPending` (SERVICE_START_PENDING). -/
def stateStartPending : Nat := 2

/-- `svc.StopPending` (SERVICE_STOP_PENDING). -/
def stateStopPending : Nat := 3

/-- `svc.Running` (SERVICE_RUNNING). -/
def stateRunning : Nat := 4

/-- `svc.Paused` (SERVICE_PAUSED). -/
def statePaused : Nat := 7

/-- `svc.Status`: the state together with the accepted-control bitmask.
The Go struct's further fields are not used by `main_windows.go`. -/
structure Status where
  state : Nat
  accepts : Nat
deriving DecidableEq

/-- `svc.ChangeRequest`: a control command code together with the host's
current-status snapshot (the only two fields `Execute` reads). -/
structure ChangeRequest where
  cmd : Nat
  currentStatus : Status
deriving DecidableEq

/-- Observable actions of `Execute`, in program order: a status sent on
`statusCh`, a worker start (`NewReplicateCommand` + `c.Run`), a worker
close (`c.Close`), an informational log line (`s.elog.Info`), or the
default-branch error log, which formats the request and hence carries
the control code (`s.elog.Error(1, fmt.Sprintf("unexpected control
request #%d", changeReq))`). -/
inductive Event where
  | report (st : Status)
  | workerStart
  | workerClose
  | logInfo (msg : String)
  | logError (cmd : Nat)
deriving DecidableEq

/-- One iteration of the `select`/`switch` in `Execute`, as the list of
events the matching `case` performs, in order.  The cascade mirrors the
Go `switch changeReq.Cmd` with its cases in source order and the
`default` branch last.  No branch breaks the loop or returns. -/
def handleReq (req : ChangeRequest) : List Event :=
  if req.cmd = svcInterrogate then
    [Event.logInfo "Litestream service interrograted",
     Event.report req.currentStatus]
  else if req.cmd = svcStop then
    [Event.logInfo "Litestream service stopped",
     Event.workerClose,
     Event.report ⟨stateStopPending, 0⟩]
  else if req.cmd = svcShutdown then
    [Event.logInfo "Litestream service shutting down",
     Event.workerClose,
     Event.report ⟨stateStopPending, 0⟩]
  else if req.cmd = svcPause then
    [Event.logInfo "Litestream service paused",
     Event.workerClose,
     Event.report ⟨statePaused, accepts⟩]
  else if req.cmd = svcContinue then
    [Event.logInfo "Litestream service continuing",
     Event.workerClose,
     Event.workerStart,
     Event.report ⟨stateRunning, accepts⟩]
  else
    [Event.logError req.cmd]

/-- The `for { select { ... } }` loop of `Execute`, driven by a finite
list of delivered change requests.  Every branch of the `switch` falls
through to the next loop iteration: the Go source contains no `break`
labelled out of the loop and no `return`, so each request's events are
unconditionally followed by the processing of the rest. -/
def processLoop : List ChangeRequest → List Event
  | [] => []
  | r :: rs => handleReq r ++ processLoop rs

/-- The full observable trace of `Execute` on a request list: the
StartPending report (zero `Accepts`), the initial worker start
(`NewReplicateCommand`/`c.Run`), the Running report with `accepts`, then
the control loop. -/
def executeTrace (reqs : List ChangeRequest) : List Event :=
  Event.report ⟨stateStartPending, 0⟩ ::
  Event.workerStart ::
  Event.report ⟨stateRunning, accepts⟩ ::
  processLoop reqs

/-! ## Derived observations on traces -/

/-- Running count of live worker instances: a start opens one, a close
closes the current one (closing an already-closed worker leaves the
count at zero, matching the idempotent `close`). -/
def stepLive (c : Nat) : Event → Nat
  | Event.workerStart => c + 1
  | Event.workerClose => c - 1
  | _ => c

/-- Number of live worker instances after a trace, starting from none. -/
def liveAfter (es : List Event) : Nat := es.foldl stepLive 0

/-- Every intermediate live-worker count along `es`, starting from `c`,
stays at most one. -/
def liveBounded (c : Nat) : List Event → Prop
  | [] => True
  | e :: es => stepLive c e ≤ 1 ∧ liveBounded (stepLive c e) es

/-- Index of the first occurrence of an event in a trace. -/
def firstIdx (a : Event) : List Event → Option Nat
  | [] => none
  | e :: es => if e = a then some 0 else (firstIdx a es).map (· + 1)

/-- `occursBefore a b es` holds when both events occur in `es` and the
first occurrence of `a` strictly precedes the first occurrence of `b`. -/
def occursBefore (a b : Event) (es : List Event) : Bool :=
  match firstIdx a es, firstIdx b es with
  | some i, some j => decide (i < j)
  | _, _ => false

/-- Number of worker start calls in a trace. -/
def countStarts : List Event → Nat
  | [] => 0
  | Event.workerStart :: es => countStarts es + 1
  | _ :: es => countStarts es

/-- Number of worker close calls in a trace. -/
def countCloses : List Event → Nat
  | [] => 0
  | Event.workerClose :: es => countCloses es + 1
  | _ :: es => countCloses es

/-- The sequence of states carried by the status reports of a trace. -/
def reportedStates : List Event → List Nat
  | [] => []
  | Event.report st :: es => st.state :: reportedStates es
  | _ :: es => reportedStates es

/-- Whether a given accepted-control bitmask admits a given command,
following the Windows service protocol: Pause and Continue are both
covered by the single `AcceptPauseAndContinue` flag. -/
def acceptsCmd (mask cmd : Nat) : Bool :=
  if cmd = svcStop then (mask &&& acceptStop) != 0
  else if cmd = svcPause then (mask &&& acceptPauseAndContinue) != 0
  else if cmd = svcContinue then (mask &&& acceptPauseAndContinue) != 0
  else if cmd = svcShutdown then (mask &&& acceptShutdown) != 0
  else false

/-- The scenario request list `[Pause, Interrogate, Continue, Stop]`
delivered after startup; the Interrogate carries the host's snapshot of
the last emitted status (Paused with the full accepts mask). -/
def scenarioReqs : List ChangeRequest :=
  [⟨svcPause, ⟨stateRunning, accepts⟩⟩,
   ⟨svcInterrogate, ⟨statePaused, accepts⟩⟩,
   ⟨svcContinue, ⟨statePaused, accepts⟩⟩,
   ⟨svcStop, ⟨stateRunning, accepts⟩⟩]

/-! ## The event-log writer adapter (`eventlogWriter.Write`) -/

/-- Outcome of one `Write` call: the returned byte count and error, and
the list of `(eventID, message)` informational submissions made to the
underlying `eventlog.Log` sink. -/
structure WriteResult where
  n : Nat
  err : Option String
  sinkCalls : List (Nat × String)
deriving DecidableEq

/-- `eventlogWriter.Write`: `return 0, (*eventlog.Log)(w).Info(1, string(p))`.
The sink is abstracted as a function from the message to an optional
error (`none` on success); the buffer is interpreted as text via
`string(p)`.  Exactly one `Info` call is made, with event ID 1 and the
whole buffer as message; the count returned is 0 and the sink's error is
returned verbatim. -/
def eventlogWriterWrite (sink : String → Option String) (p : List Char) :
    WriteResult :=
  { n := 0
    err := sink (String.mk p)
    sinkCalls := [(1, String.mk p)] }

/-! ## Log-destination handling in `runWindowsService` -/

/-- A process log destination (`log.SetOutput` argument): `os.Stderr`,
the event-log writer, or any other writer that may have been active
before entry. -/
inductive Dest where
  | stderr
  | elogWriter
  | other (n : Nat)
deriving DecidableEq

/-- Success flags for the fallible steps of `runWindowsService`:
`eventlog.Open`, `eventlog.InstallAsEventCreate`, and `svc.Run`. -/
structure RunFlags where
  openOk : Bool
  installOk : Bool
  runOk : Bool
deriving DecidableEq

/-- Observable actions of `runWindowsService` relevant to the log
destination: a `log.SetOutput` call, the event-create installation, and
the `svc.Run` invocation. -/
inductive RSEvent where
  | setOutput (d : Dest)
  | installEventCreate
  | svcRun
deriving DecidableEq

/-- The ordered actions of `runWindowsService`: if `eventlog.Open` fails
it returns at once; otherwise it sets the event-log writer as output and
registers `defer log.SetOutput(os.Stderr)`, then attempts installation;
on installation failure it returns (running the deferred restore to
`os.Stderr`), otherwise it runs the service handler and then the
deferred restore to `os.Stderr`.  Whether `svc.Run` fails affects only
the returned error, not the destination events. -/
def runWindowsServiceTrace (f : RunFlags) : List RSEvent :=
  if f.openOk = false then
    []
  else
    RSEvent.setOutput Dest.elogWriter ::
    RSEvent.installEventCreate ::
    (if f.installOk = false then
      [RSEvent.setOutput Dest.stderr]
     else
      [RSEvent.svcRun, RSEvent.setOutput Dest.stderr])

/-- The log destination after running a list of actions from a prior
destination: each `setOutput` replaces it, other actions leave it. -/
def logDest (prior : Dest) (tr : List RSEvent) : Dest :=
  tr.foldl (fun d e => match e with
    | RSEvent.setOutput d2 => d2
    | _ => d) prior

end Litestream

namespace Litestream

/-! ## Helper lemmas for the live-worker invariant -/

/-- `liveBounded` splits over list append. -/
theorem liveBounded_append (xs ys : List Event) :
    ∀ c, liveBounded c (xs ++ ys) ↔
      liveBounded c xs ∧ liveBounded (xs.foldl stepLive c) ys := by
  induction xs with
  | nil => intro c; simp [liveBounded]
  | cons e es ih =>
      intro c
      simp [liveBounded, ih (stepLive c e), and_assoc]

/-- Each branch of the `switch` keeps the live-worker count at most one,
both at every intermediate point and at the end of the branch. -/
theorem liveBounded_handleReq (r : ChangeRequest) (c : Nat) (hc : c ≤ 1) :
    liveBounded c (handleReq r) ∧ (handleReq r).foldl stepLive c ≤ 1 := by
  by_cases h1 : r.cmd = svcInterrogate
  · simp [handleReq, h1, svcInterrogate, svcStop, svcShutdown, svcPause,
      svcContinue, liveBounded, stepLive] <;> omega
  by_cases h2 : r.cmd = svcStop
  · simp [handleReq, h1, h2, svcInterrogate, svcStop, svcShutdown, svcPause,
      svcContinue, liveBounded, stepLive] <;> omega
  by_cases h3 : r.cmd = svcShutdown
  · simp [handleReq, h1, h2, h3, svcInterrogate, svcStop, svcShutdown,
      svcPause, svcContinue, liveBounded, stepLive] <;> omega
  by_cases h4 : r.cmd = svcPause
  · simp [handleReq, h1, h2, h3, h4, svcInterrogate, svcStop, svcShutdown,
      svcPause, svcContinue, liveBounded, stepLive] <;> omega
  by_cases h5 : r.cmd = svcContinue
  · simp [handleReq, h1, h2, h3, h4, h5, svcInterrogate, svcStop, svcShutdown,
      svcPause, svcContinue, liveBounded, stepLive] <;> omega
  · simp [handleReq, h1, h2, h3, h4, h5, liveBounded, stepLive] <;> omega

/-- The control loop keeps the live-worker count at most one whenever it
starts from a count of at most one. -/
theorem liveBounded_processLoop (rs : List ChangeRequest) :
    ∀ c, c ≤ 1 → liveBounded c (processLoop rs) := by
  induction rs with
  | nil => intro c hc; simp [processLoop, liveBounded]
  | cons r rs ih =>
      intro c hc
      have h := liveBounded_handleReq r c hc
      have h2 := (liveBounded_append (handleReq r) (processLoop rs) c).mpr
        ⟨h.1, ih _ h.2⟩
      simpa [processLoop] using h2

/-- A bounded trace stays bounded on every prefix. -/
theorem liveBounded_take (es : List Event) :
    ∀ c n, c ≤ 1 → liveBounded c es → ((es.take n).foldl stepLive c) ≤ 1 := by
  induction es with
  | nil => intro c n hc _; simpa using hc
  | cons e es ih =>
      intro c n hc hb
      obtain ⟨hb1, hb2⟩ := hb
      cases n with
      | zero => simpa using hc
      | succ n =>
          simp only [List.take_succ_cons, List.foldl_cons]
          exact ih (stepLive c e) n hb1 hb2

end Litestream

namespace Litestream

/-- Claim C1 (code-bug evidence): after a Stop request has been fully
processed — `c.Close()` has returned and the StopPending report has been
sent — the loop does not terminate: the next delivered control request
is still read and handled, because no branch of the `switch` breaks the
`for` loop or returns from `Execute`. -/
theorem stop_processed_loop_reads_next_request (s : Status) (r : ChangeRequest)
    (rs : List ChangeRequest) :
    processLoop (⟨svcStop, s⟩ :: r :: rs) =
      [Event.logInfo "Litestream service stopped", Event.workerClose,
       Event.report ⟨stateStopPending, 0⟩] ++ handleReq r ++ processLoop rs :=
  rfl

/-- Claim C2 (counterexample): on the request sequence `[Stop]` the
StopPending report does not precede the worker close; the close call is
made (and returns) strictly before the report is sent. -/
theorem stopPending_report_not_before_close :
    occursBefore (Event.report ⟨stateStopPending, 0⟩) Event.workerClose
      (executeTrace [⟨svcStop, ⟨stateRunning, accepts⟩⟩]) = false :=
  rfl

/-- Claim C2 (amended): for every Stop or Shutdown request, the worker
close strictly precedes the StopPending report in the emitted events —
the report is sent only after the blocking `c.Close()` has returned. -/
theorem close_precedes_stopPending_report (s t : Status) :
    occursBefore Event.workerClose (Event.report ⟨stateStopPending, 0⟩)
      (handleReq ⟨svcStop, s⟩) = true ∧
    occursBefore Event.workerClose (Event.report ⟨stateStopPending, 0⟩)
      (handleReq ⟨svcShutdown, t⟩) = true :=
  ⟨rfl, rfl⟩

/-- Claim C3 (counterexample): the Pause branch emits a Paused report
whose accepts mask is the same full `accepts` constant used while
running, and that mask does accept Pause — contradicting the claim that
Pause is not accepted while paused. -/
theorem paused_report_accepts_pause :
    handleReq ⟨svcPause, ⟨stateRunning, accepts⟩⟩ =
      [Event.logInfo "Litestream service paused", Event.workerClose,
       Event.report ⟨statePaused, accepts⟩] ∧
    acceptsCmd accepts svcPause = true := by
  exact ⟨rfl, by decide⟩

/-- Claim C3 (amended): every Pause request handled by the loop emits a
Paused report carrying the full accepts mask
`AcceptStop ||| AcceptShutdown ||| AcceptPauseAndContinue`, which admits
Continue, Stop, Shutdown — and also Pause itself. -/
theorem pause_emits_paused_with_full_accepts (s : Status) :
    handleReq ⟨svcPause, s⟩ =
      [Event.logInfo "Litestream service paused", Event.workerClose,
       Event.report ⟨statePaused, accepts⟩] ∧
    acceptsCmd accepts svcContinue = true ∧
    acceptsCmd accepts svcStop = true ∧
    acceptsCmd accepts svcShutdown = true ∧
    acceptsCmd accepts svcPause = true := by
  exact ⟨rfl, by decide, by decide, by decide, by decide⟩

end Litestream

namespace Litestream

/-- Claim C4 (counterexample): on the scenario `[Pause, Interrogate,
Continue, Stop]` after startup, the total number of worker close calls
is not two — the Continue branch closes the already-closed worker again
before starting a new one, for a total of three closes. -/
theorem scenario_close_count_not_two :
    countCloses (executeTrace scenarioReqs) ≠ 2 := by decide

/-- Claim C4 (amended): the scenario `[Pause, Interrogate, Continue,
Stop]` after the initial start produces the reported state sequence
`[StartPending, Running, Paused, Paused (echo), Running, StopPending]`,
with exactly two worker start calls and exactly three worker close
calls. -/
theorem scenario_trace_states_and_counts :
    reportedStates (executeTrace scenarioReqs) =
      [stateStartPending, stateRunning, statePaused, statePaused,
       stateRunning, stateStopPending] ∧
    countStarts (executeTrace scenarioReqs) = 2 ∧
    countCloses (executeTrace scenarioReqs) = 3 := by
  refine ⟨rfl, rfl, rfl⟩

/-- Claim C5: in every reachable point of every trace of `Execute` — for
any request list and any prefix of the resulting event trace — at most
one worker instance is live: worker starts and closes alternate so the
running count of started-but-not-closed instances never exceeds one. -/
theorem at_most_one_live_worker (reqs : List ChangeRequest) (n : Nat) :
    liveAfter ((executeTrace reqs).take n) ≤ 1 := by
  have hb : liveBounded 0 (executeTrace reqs) := by
    simp only [executeTrace, liveBounded, stepLive]
    exact ⟨by omega, by omega, by omega,
      liveBounded_processLoop reqs 1 (by omega)⟩
  exact liveBounded_take (executeTrace reqs) 0 n (by omega) hb

/-- Claim C6: an Interrogate request makes no worker start or close
call, emits no report other than the echo of the status carried with the
request (`changeReq.CurrentStatus`), and leaves the rest of the loop's
behaviour unchanged. -/
theorem interrogate_echoes_and_preserves (s : Status)
    (rs : List ChangeRequest) :
    handleReq ⟨svcInterrogate, s⟩ =
      [Event.logInfo "Litestream service interrograted", Event.report s] ∧
    countStarts (handleReq ⟨svcInterrogate, s⟩) = 0 ∧
    countCloses (handleReq ⟨svcInterrogate, s⟩) = 0 ∧
    processLoop (⟨svcInterrogate, s⟩ :: rs) =
      Event.logInfo "Litestream service interrograted" :: Event.report s ::
        processLoop rs := by
  exact ⟨rfl, rfl, rfl, rfl⟩

/-- Claim C7: a control request whose code is none of Interrogate, Stop,
Shutdown, Pause, Continue only logs an error carrying the code: it emits
no status report, makes no worker start or close call, and the loop goes
on to process the remaining requests. -/
theorem unknown_code_logs_and_continues (cmd : Nat) (s : Status)
    (rs : List ChangeRequest)
    (h1 : cmd ≠ svcInterrogate) (h2 : cmd ≠ svcStop) (h3 : cmd ≠ svcShutdown)
    (h4 : cmd ≠ svcPause) (h5 : cmd ≠ svcContinue) :
    handleReq ⟨cmd, s⟩ = [Event.logError cmd] ∧
    reportedStates (handleReq ⟨cmd, s⟩) = [] ∧
    countStarts (handleReq ⟨cmd, s⟩) = 0 ∧
    countCloses (handleReq ⟨cmd, s⟩) = 0 ∧
    processLoop (⟨cmd, s⟩ :: rs) = Event.logError cmd :: processLoop rs := by
  have h : handleReq ⟨cmd, s⟩ = [Event.logError cmd] := by
    simp [handleReq, h1, h2, h3, h4, h5]
  refine ⟨h, ?_, ?_, ?_, ?_⟩
  · rw [h]
    rfl
  · rw [h]
    rfl
  · rw [h]
    rfl
  · show handleReq ⟨cmd, s⟩ ++ processLoop rs = _
    rw [h]
    rfl

/-- Witness for claim C7, at the concrete unknown code 6
(`svc.ParamChange`, not handled by the switch). -/
theorem unknown_code_logs_and_continues_witness :
    handleReq ⟨6, ⟨stateRunning, accepts⟩⟩ = [Event.logError 6] ∧
    reportedStates (handleReq ⟨6, ⟨stateRunning, accepts⟩⟩) = [] ∧
    countStarts (handleReq ⟨6, ⟨stateRunning, accepts⟩⟩) = 0 ∧
    countCloses (handleReq ⟨6, ⟨stateRunning, accepts⟩⟩) = 0 ∧
    processLoop [⟨6, ⟨stateRunning, accepts⟩⟩] =
      Event.logError 6 :: processLoop [] :=
  unknown_code_logs_and_continues 6 ⟨stateRunning, accepts⟩ []
    (by decide) (by decide) (by decide) (by decide) (by decide)

/-- Claim C8: `eventlogWriter.Write` makes exactly one informational
sink submission, with event ID 1 and the whole buffer interpreted as
text as its message; it returns count 0, and returns the sink's error
verbatim (in particular `none` exactly when the sink succeeds). -/
theorem eventlogWriter_write_one_record (sink : String → Option String)
    (p : List Char) :
    (eventlogWriterWrite sink p).sinkCalls = [(1, String.mk p)] ∧
    (eventlogWriterWrite sink p).n = 0 ∧
    (eventlogWriterWrite sink p).err = sink (String.mk p) :=
  ⟨rfl, rfl, rfl⟩

/-- Claim C9 (counterexample): with a prior log destination other than
`os.Stderr`, `runWindowsService` does not restore the prior destination
on exit: every exit path after a successful `eventlog.Open` leaves the
destination at `os.Stderr`, because the deferred call is
`log.SetOutput(os.Stderr)` rather than a restore of the saved prior
writer. -/
theorem log_dest_not_restored_to_prior :
    logDest (Dest.other 0) (runWindowsServiceTrace ⟨true, true, true⟩) =
      Dest.stderr ∧ Dest.stderr ≠ Dest.other 0 :=
  ⟨rfl, by decide⟩

/-- Claim C9 (amended): once `eventlog.Open` succeeds,
`runWindowsService` first installs the event-log writer as the log
destination, and on every exit path (installation failure, service-run
failure, or success) the final destination is `os.Stderr`. -/
theorem log_dest_restored_to_stderr (prior : Dest) (i r : Bool) :
    (runWindowsServiceTrace ⟨true, i, r⟩).head? =
      some (RSEvent.setOutput Dest.elogWriter) ∧
    logDest prior (runWindowsServiceTrace ⟨true, i, r⟩) = Dest.stderr := by
  cases i <;> cases r <;> exact ⟨rfl, rfl⟩

/-- Claim C10: on any request list, the very first event of `Execute` is
the StartPending report with an empty accepts mask, the second is the
worker start, and the Running report with the full accepts mask comes
only after it, as the third event — before any control request is
handled. -/
theorem startPending_then_start_then_running (reqs : List ChangeRequest) :
    firstIdx (Event.report ⟨stateStartPending, 0⟩) (executeTrace reqs) =
      some 0 ∧
    firstIdx Event.workerStart (executeTrace reqs) = some 1 ∧
    firstIdx (Event.report ⟨stateRunning, accepts⟩) (executeTrace reqs) =
      some 2 := by
  refine ⟨rfl, rfl, rfl⟩

end Litestream
